import Mathlib

/-!
# Verification of the mydb transactional storage core

A shallow embedding of the storage engine of the `mydb` repository:
the page byte accessors (`file/page.go`), the log manager and its reverse
iterator (`log/manager.go`, `log/iterator.go`), the log-record encode and
decode layer (`tx/*.go`), the recovery scan (`tx/recovery_manager.go`),
the lock table (`tx/concurrency/lock_table.go`), the file manager read
path (`file/manager.go`), the per-transaction buffer list (`tx/buffer_list.go`)
and the buffer frame metadata (`buffer/buffer.go`).

The Go code reads and writes machine integers whose width is
`utils.IntSize`: the source declares `var IntSize = 8` and lowers it to 4
only on 32-bit architectures (`386`, `arm`).  Several functions, however,
hard-code the literal `4` where the width of such an integer is meant
(the log manager's record-size accounting, `WriteStartToLog`'s transaction
number offset, `WriteCheckpointToLog`'s record length).  All definitions
below therefore take the integer width `w` as an explicit parameter and
keep every hard-coded `4` of the source as a literal `4`, so that both the
32-bit build (`w = 4`) and the default 64-bit build (`w = 8`) are covered
by the same embedding.
-/

deriving instance DecidableEq for Except

set_option maxRecDepth 100000

/-! ## Bytes and big-endian integers -/

/-- Big-endian byte encoding of `n` in `w` bytes
(`binary.BigEndian.PutUint32` / `PutUint64` in Go, which truncate to the
word width). -/
def beBytes (w : Nat) (n : Nat) : List Nat :=
  (List.range w).map (fun i => n / 256 ^ (w - 1 - i) % 256)

/-- Big-endian byte decoding (`binary.BigEndian.Uint32` / `Uint64`). -/
def bytesToNat (l : List Nat) : Nat :=
  l.foldl (fun a b => a * 256 + b) 0

/-- Reinterpret a `w`-byte unsigned value as a signed integer, matching
Go's conversion `int(u)` where `int` has the same width as `u`. -/
def toSigned (w : Nat) (n : Nat) : Int :=
  if n < 2 ^ (8 * w - 1) then (n : Int) else (n : Int) - 2 ^ (8 * w)

/-! ## Pages (`file/page.go`)

A page is a byte buffer; we model it as a `List Nat` whose entries are
byte values.  `writeAt` is Go's `copy(p.buffer[off:], b)`: it copies as
many bytes of `b` as fit, silently truncating at the end of the buffer. -/

/-- `copy(buf[off:], b)`: overwrite `buf` from offset `off` with the bytes
of `b`, truncated at the end of `buf`. -/
def writeAt (buf : List Nat) (off : Nat) (b : List Nat) : List Nat :=
  buf.take off ++ b.take (buf.length - off) ++ buf.drop (off + b.length)

/-- `Page.GetInt`: read a `w`-byte big-endian integer at `off` and
reinterpret it as a signed machine integer. -/
def pageGetInt (w : Nat) (buf : List Nat) (off : Nat) : Int :=
  toSigned w (bytesToNat ((buf.drop off).take w))

/-- `Page.SetInt`: write `n` as a `w`-byte big-endian integer at `off`
(Go converts through `uint32` / `uint64`, i.e. reduces modulo `2^(8w)`). -/
def pageSetInt (w : Nat) (buf : List Nat) (off : Nat) (n : Int) : List Nat :=
  writeAt buf off (beBytes w (n.emod (2 ^ (8 * w))).toNat)

/-- `Page.SetBytes`: a `w`-byte length followed by the raw bytes. -/
def pageSetBytes (w : Nat) (buf : List Nat) (off : Nat) (b : List Nat) : List Nat :=
  writeAt (pageSetInt w buf off b.length) (off + w) b

/-- `Page.GetBytes`: read the `w`-byte length at `off`, then that many
bytes after it.  Go slices `p.buffer[start:end]` and panics when the end
exceeds the buffer (or the length is negative); we model the panic as
`none`. -/
def pageGetBytes (w : Nat) (buf : List Nat) (off : Nat) : Option (List Nat) :=
  let len := pageGetInt w buf off
  if len < 0 then none
  else if off + w + len.toNat ≤ buf.length then
    some ((buf.drop (off + w)).take len.toNat)
  else none

/-! ## Log manager (`log/manager.go`)

State: the blocks of the log file on disk, the number of the current
block, the in-memory log page mirroring it, and the LSN counters. -/

structure LogState where
  disk : List (List Nat)
  currentBlock : Nat
  logPage : List Nat
  latestLSN : Nat
  lastSavedLSN : Nat
  deriving Repr, DecidableEq

/-- `Manager.flush`: write the in-memory page to the current block and
record the latest LSN as saved. -/
def logFlush (st : LogState) : LogState :=
  { st with
    disk := st.disk.set st.currentBlock st.logPage
    lastSavedLSN := st.latestLSN }

/-- `appendNewBlock`: the file manager appends a zero block, the boundary
word of the in-memory page is set to `blockSize` (the rest of the page
keeps its previous bytes, exactly as in the source), and the page is
written to the new block. -/
def logAppendNewBlock (w blockSize : Nat) (st : LogState) : LogState :=
  let newNum := st.disk.length
  let disk1 := st.disk ++ [List.replicate blockSize 0]
  let page1 := pageSetInt w st.logPage 0 blockSize
  { st with
    disk := disk1.set newNum page1
    logPage := page1
    currentBlock := newNum }

/-- `NewManager` on an empty log file: a fresh zero page, then one new
block whose boundary is `blockSize`. -/
def newLogState (w blockSize : Nat) : LogState :=
  logAppendNewBlock w blockSize
    { disk := [], currentBlock := 0, logPage := List.replicate blockSize 0,
      latestLSN := 0, lastSavedLSN := 0 }

/-- `Manager.Append`: read the boundary, budget `len(record) + 4` bytes
(the literal `4` of the source: "4 bytes for the integer storing the
record size"), start a new block when `boundary - bytesNeeded < 4`, write
the record with `SetBytes` at `boundary - bytesNeeded`, store the new
boundary and bump the LSN. -/
def logAppend (w blockSize : Nat) (st : LogState) (rec : List Nat) : LogState :=
  let boundary := pageGetInt w st.logPage 0
  let bytesNeeded : Int := rec.length + 4
  let st1 := if boundary - bytesNeeded < 4 then logAppendNewBlock w blockSize (logFlush st) else st
  let boundary1 := pageGetInt w st1.logPage 0
  let recordPosition := (boundary1 - bytesNeeded).toNat
  let page2 := pageSetBytes w st1.logPage recordPosition rec
  { st1 with
    logPage := pageSetInt w page2 0 recordPosition
    latestLSN := st1.latestLSN + 1 }

/-- Append a list of records in order. -/
def logAppendAll (w blockSize : Nat) (st : LogState) (recs : List (List Nat)) : LogState :=
  recs.foldl (logAppend w blockSize) st

/-! ## Log iterator (`log/iterator.go`) -/

structure IterState where
  blockNum : Nat
  page : List Nat
  pos : Nat
  deriving Repr, DecidableEq

/-- `Iterator.moveToBlock`: read the block into the page and position the
cursor at the block's boundary. -/
def iterMoveToBlock (w : Nat) (disk : List (List Nat)) (n : Nat) : IterState :=
  let page := disk.getD n []
  { blockNum := n, page := page, pos := (pageGetInt w page 0).toNat }

/-- `Manager.Iterator`: flush, then start at the current block. -/
def newIterator (w : Nat) (st : LogState) : LogState × IterState :=
  let st1 := logFlush st
  (st1, iterMoveToBlock w st1.disk st1.currentBlock)

/-- `Iterator.HasNext`. -/
def iterHasNext (blockSize : Nat) (it : IterState) : Bool :=
  it.pos < blockSize || it.blockNum > 0

/-- `Iterator.Next`: at the end of a block move to the previous block
(error at block 0), then read the length-delimited record at the cursor
and advance the cursor by `4 + len(record)` (again the literal `4` of the
source). A `GetBytes` slice panic is modelled as an error. -/
def iterNext (w blockSize : Nat) (disk : List (List Nat)) (it : IterState) :
    Except Unit (List Nat × IterState) :=
  let step : Except Unit IterState :=
    if it.pos = blockSize then
      if it.blockNum = 0 then .error ()
      else .ok (iterMoveToBlock w disk (it.blockNum - 1))
    else .ok it
  match step with
  | .error e => .error e
  | .ok it2 =>
    match pageGetBytes w it2.page it2.pos with
    | none => .error ()
    | some rec => .ok (rec, { it2 with pos := it2.pos + 4 + rec.length })

/-- Drive the iterator the way the callers do (`for iter.HasNext() {
rec, err := iter.Next() ... }`), collecting up to `fuel` results; an error
from `Next` ends the run with that error as the last element. -/
def iterRun (w blockSize : Nat) (disk : List (List Nat)) :
    Nat → IterState → List (Except Unit (List Nat))
  | 0, _ => []
  | fuel + 1, it =>
    if iterHasNext blockSize it then
      match iterNext w blockSize disk it with
      | .error e => [.error e]
      | .ok (rec, it') => .ok rec :: iterRun w blockSize disk fuel it'
    else []

/-- Append the records and then run the iterator: the observable record
sequence of the log, newest first. -/
def logRoundTrip (w blockSize : Nat) (recs : List (List Nat)) (fuel : Nat) :
    List (Except Unit (List Nat)) :=
  let st := logAppendAll w blockSize (newLogState w blockSize) recs
  let p := newIterator w st
  iterRun w blockSize p.1.disk fuel p.2

/-! ## Log records (`tx/log_record.go`, `tx/start.go`, `tx/commit.go`)

The discriminator tags of `LogRecordType` and the metadata every decoded
record exposes: its operation (`Op()`) and its transaction number
(`TxNumber()`).  `CheckpointRecord.TxNumber()` reports the sentinel `-1`;
every other record type reads its transaction number at offset
`utils.IntSize`. -/

inductive RecType where
  | checkpoint | start | commit | rollback
  | setInt | setString | setBool | setLong | setShort | setDate
  deriving Repr, DecidableEq

/-- `FromCode`: the tag values 0..9, anything else is an unknown-tag
error. -/
def fromCode (code : Int) : Except Unit RecType :=
  if code = 0 then .ok .checkpoint
  else if code = 1 then .ok .start
  else if code = 2 then .ok .commit
  else if code = 3 then .ok .rollback
  else if code = 4 then .ok .setInt
  else if code = 5 then .ok .setString
  else if code = 6 then .ok .setBool
  else if code = 7 then .ok .setLong
  else if code = 8 then .ok .setShort
  else if code = 9 then .ok .setDate
  else .error ()

/-- The integer tag written for each record type (the `iota` constants). -/
def recTypeCode : RecType → Int
  | .checkpoint => 0 | .start => 1 | .commit => 2 | .rollback => 3
  | .setInt => 4 | .setString => 5 | .setBool => 6 | .setLong => 7
  | .setShort => 8 | .setDate => 9

/-- `CreateLogRecord` restricted to the metadata every branch computes:
dispatch on the tag at offset 0, then the decoded record's `Op()` and
`TxNumber()`.  `NewStartRecord`, `NewCommitRecord` and all
`NewSetXRecord` constructors read the transaction number with
`page.GetInt(utils.IntSize)`; `NewRollbackRecord` alone computes
`txNumPos := operationPos * utils.IntSize` — a `*` where its siblings
have `+` — and therefore reads the transaction number at offset 0, the
tag word itself; `NewCheckpointRecord` stores none and its `TxNumber()`
returns `-1`. -/
def createLogRecordMeta (w : Nat) (bytes : List Nat) : Except Unit (RecType × Int) :=
  match fromCode (pageGetInt w bytes 0) with
  | .error e => .error e
  | .ok t =>
    .ok (t,
      if t = RecType.checkpoint then -1
      else if t = RecType.rollback then pageGetInt w bytes 0
      else pageGetInt w bytes w)

/-- `WriteStartToLog`'s record bytes: `2*IntSize` zero bytes, the Start
tag written with `SetInt` at offset 0, and the transaction number written
with `SetInt` at the hard-coded offset `4` of the source. -/
def startRecordBytes (w : Nat) (txNum : Int) : List Nat :=
  pageSetInt w (pageSetInt w (List.replicate (2 * w) 0) 0 1) 4 txNum

/-- `WriteCommitToLog`'s record bytes: tag at offset 0, transaction
number at offset `utils.IntSize`. -/
def commitRecordBytes (w : Nat) (txNum : Int) : List Nat :=
  pageSetInt w (pageSetInt w (List.replicate (2 * w) 0) 0 2) w txNum

/-- `WriteRollbackToLog`'s record bytes: `2*IntSize` zero bytes, the
Rollback tag written with `SetInt` at offset 0, and the transaction
number written with `SetInt` at the hard-coded offset `4` of the source
(the same literal as in `WriteStartToLog`). -/
def rollbackRecordBytes (w : Nat) (txNum : Int) : List Nat :=
  pageSetInt w (pageSetInt w (List.replicate (2 * w) 0) 0 3) 4 txNum

/-- `file.MaxLength`: the slot reserved for a length-delimited string of
`strlen` bytes (`utils.IntSize + strlen * utf8.UTFMax`). -/
def maxLength (w strlen : Nat) : Nat :=
  w + strlen * 4

/-- `WriteSetIntToLog`'s record bytes: tag, transaction number, file name
written with `SetString` (= `SetBytes` of its UTF-8 bytes) in a slot of
`MaxLength` bytes, block number, offset, and the logged pre-image
value, each at the offsets the source computes. -/
def setIntRecordBytes (w : Nat) (txNum : Int) (fname : List Nat)
    (blockNum off val : Int) : List Nat :=
  let txNumPos := 0 + w
  let fileNamePos := txNumPos + w
  let blockNumPos := fileNamePos + maxLength w fname.length
  let offsetPos := blockNumPos + w
  let valuePos := offsetPos + w
  let buf0 := List.replicate (valuePos + w) 0
  let buf1 := pageSetInt w buf0 0 4
  let buf2 := pageSetInt w buf1 txNumPos txNum
  let buf3 := pageSetBytes w buf2 fileNamePos fname
  let buf4 := pageSetInt w buf3 blockNumPos blockNum
  let buf5 := pageSetInt w buf4 offsetPos off
  pageSetInt w buf5 valuePos val

/-- `WriteCheckpointToLog`'s record bytes: the source allocates
`make([]byte, 4)` and calls `SetInt(0, 0)`; `PutUint32` / `PutUint64`
require `w` bytes of room and panic (modelled as `none`) when the buffer
is shorter. -/
def checkpointRecordBytes (w : Nat) : Option (List Nat) :=
  if w ≤ 4 then some (pageSetInt w (List.replicate 4 0) 0 0) else none

/-! ## Recovery scan (`tx/recovery_manager.go`)

`doRecover` iterates the log newest to oldest.  `doRecoverDecode` models
one error-free scan at the byte level: each input element is the byte
record one `iter.Next()` yields, decoded with `CreateLogRecord`; the
result lists the `(Op(), TxNumber())` pairs of the records on which
`Undo` is invoked (per the record implementations, only the six `SetX`
update types restore data; Start, Commit, Rollback and Checkpoint undos
return nil without touching anything).  `doRecoverFallible`, used for the
error path, works on already-decoded records. -/

/-- `doRecover` at the byte level: stop at a Checkpoint record, collect
the decoded transaction numbers of Commit and Rollback records into
`finishedTransactions`, and invoke `Undo` on every other record whose
decoded transaction number is not yet collected.  A `CreateLogRecord`
decode error propagates. -/
def doRecoverDecode (w : Nat) : List (List Nat) → List Int → Except Unit (List (RecType × Int))
  | [], _ => .ok []
  | bs :: rest, finished =>
    match createLogRecordMeta w bs with
    | .error e => .error e
    | .ok (t, tx) =>
      if t = RecType.checkpoint then .ok []
      else if t = RecType.commit ∨ t = RecType.rollback then
        doRecoverDecode w rest (finished ++ [tx])
      else if tx ∈ finished then doRecoverDecode w rest finished
      else
        match doRecoverDecode w rest finished with
        | .error e => .error e
        | .ok l => .ok ((t, tx) :: l)

/-- A decoded log record as the error-path model uses it: its type, its
transaction number and an abstract payload. -/
structure Rec where
  type : RecType
  tx : Int
  payload : Nat
  deriving Repr, DecidableEq

/-- `doRecover` with a fallible iterator.  Each element of the input is
the outcome of one `iter.Next()` call.  The source reads
`bytes, err := iter.Next(); if err != nil { return nil }` — the iterator
error is dropped and the scan reports success.  (Decode errors from
`CreateLogRecord` and `Undo` errors are propagated in the source and are
not in scope here.)  The result is what the caller of `doRecover`
observes. -/
def doRecoverFallible : List (Except Unit Rec) → List Int → Except Unit Unit
  | [], _ => .ok ()
  | .error _ :: _, _ => .ok ()
  | .ok r :: rs, finished =>
    if r.type = RecType.checkpoint then .ok ()
    else if r.type = RecType.commit ∨ r.type = RecType.rollback then
      doRecoverFallible rs (finished ++ [r.tx])
    else doRecoverFallible rs finished

/-- `RecoveryManager.Recover` as seen by its caller: it returns an error
exactly when `doRecover` (or one of the follow-up steps, not modelled as
failing here) returns one. -/
def recoverFallible (items : List (Except Unit Rec)) : Except Unit Unit :=
  match doRecoverFallible items [] with
  | .error e => .error e
  | .ok _ => .ok ()

/-! ## Lock table (`tx/concurrency/lock_table.go`)

`locks` is a Go map from block to `int`; reading an absent key yields 0
and `delete` removes the entry, so the state is a partial map.  `SLock`
and `XLock` loop on a condition variable; a single pass of the loop body
either acquires the lock or waits, so the acquisition (all the claims
need) is the successful branch of one pass, modelled as a partial step:
`none` means the caller would wait. -/

def getLockVal {B : Type} (locks : B → Option Int) (b : B) : Int :=
  (locks b).getD 0

/-- `hasXLock`: the entry is negative. -/
def hasXLock {B : Type} (locks : B → Option Int) (b : B) : Prop :=
  getLockVal locks b < 0

/-- `hasOtherSLocks`: the entry is greater than 1. -/
def hasOtherSLocks {B : Type} (locks : B → Option Int) (b : B) : Prop :=
  getLockVal locks b > 1

instance {B : Type} (locks : B → Option Int) (b : B) : Decidable (hasXLock locks b) :=
  inferInstanceAs (Decidable (_ < _))

instance {B : Type} (locks : B → Option Int) (b : B) : Decidable (hasOtherSLocks locks b) :=
  inferInstanceAs (Decidable (_ > _))

/-- Point update of the lock map (`lt.locks[*block] = v` / `delete`). -/
def setLock {B : Type} [DecidableEq B] (locks : B → Option Int) (b : B) (v : Option Int) :
    B → Option Int :=
  fun b' => if b' = b then v else locks b'

/-- The successful branch of `SLock`: if no exclusive lock is held,
increment the counter (creating it at 1); otherwise the caller waits. -/
def slockTry {B : Type} [DecidableEq B] (locks : B → Option Int) (b : B) :
    Option (B → Option Int) :=
  if hasXLock locks b then none
  else some (setLock locks b (some (getLockVal locks b + 1)))

/-- The successful branch of `XLock`: if no other shared holders remain
(counter at most 1, trusting the caller's own slock), set the entry to
`-1`; otherwise the caller waits. -/
def xlockTry {B : Type} [DecidableEq B] (locks : B → Option Int) (b : B) :
    Option (B → Option Int) :=
  if hasOtherSLocks locks b then none
  else some (setLock locks b (some (-1)))

/-- `Unlock`: decrement a counter above 1, otherwise remove the entry. -/
def unlockGo {B : Type} [DecidableEq B] (locks : B → Option Int) (b : B) :
    B → Option Int :=
  if getLockVal locks b > 1 then setLock locks b (some (getLockVal locks b - 1))
  else setLock locks b none

/-- Lock-table states reachable from the empty table by successful
`SLock`, `XLock` and `Unlock` calls. -/
inductive LockReachable {B : Type} [DecidableEq B] : (B → Option Int) → Prop where
  | base : LockReachable (fun _ => none)
  | slock {m m' : B → Option Int} (b : B) :
      LockReachable m → slockTry m b = some m' → LockReachable m'
  | xlock {m m' : B → Option Int} (b : B) :
      LockReachable m → xlockTry m b = some m' → LockReachable m'
  | unlock {m : B → Option Int} (b : B) :
      LockReachable m → LockReachable (unlockGo m b)

/-! ## File manager read path (`file/manager.go`)

The file is a byte sequence; `Read` seeks to `blockNumber * blockSize`
and calls `io.ReadFull` into the page buffer.  `ReadFull` reads
`min(len(buf), available)` bytes and reports: no error on a full buffer,
`io.EOF` when zero bytes were available, and an unexpected-EOF error on a
non-empty partial read.  The source succeeds on the first two (leaving
the page as it was in the zero-byte case) and returns an error otherwise. -/

def fmRead (blockSize : Nat) (fileBytes : List Nat) (blockNum : Nat) (page : List Nat) :
    Except Unit (List Nat) :=
  let off := blockNum * blockSize
  let avail := fileBytes.length - off
  let n := min page.length avail
  if n = page.length then .ok ((fileBytes.drop off).take page.length)
  else if n = 0 then .ok page
  else .error ()

/-! ## Buffer pool bookkeeping and per-transaction buffer list
(`buffer/manager.go`, `tx/buffer_list.go`)

For claim C9 only the `Unpin` path matters: the pool state is the
per-frame pin counts and the available count; the transaction's buffer
list maps a block to the frame it pinned and a local reference count. -/

structure PoolState where
  pins : Nat → Int
  numAvailable : Int

/-- `buffer.Manager.Unpin`: decrement the frame's pin count; when it is
no longer pinned (count not positive), increment the available count (and
broadcast, not modelled). -/
def poolUnpin (pool : PoolState) (f : Nat) : PoolState :=
  let p := pool.pins f - 1
  { pins := fun g => if g = f then p else pool.pins g
    numAvailable := if p > 0 then pool.numAvailable else pool.numAvailable + 1 }

/-- A transaction's buffer list: block to (frame, local reference count). -/
def BufList (B : Type) := B → Option (Nat × Int)

/-- `BufferList.Unpin`: absent entries return silently; otherwise the
local count is decremented and, at zero or below, the pool is unpinned
and the entry removed.  `Transaction.Unpin` delegates here. -/
def bufListUnpin {B : Type} [DecidableEq B] (bl : BufList B) (pool : PoolState) (b : B) :
    BufList B × PoolState :=
  match bl b with
  | none => (bl, pool)
  | some (f, rc) =>
    let rc' := rc - 1
    if rc' ≤ 0 then
      (fun b' => if b' = b then none else bl b', poolUnpin pool f)
    else
      (fun b' => if b' = b then some (f, rc') else bl b', pool)

/-! ## Buffer frame metadata (`buffer/buffer.go`) -/

structure BufMeta where
  txnNum : Int
  lsn : Int
  deriving Repr, DecidableEq

/-- `Buffer.SetModified`: always record the modifying transaction; adopt
the LSN only when it is non-negative (a negative LSN marks an unlogged
update). -/
def setModified (b : BufMeta) (txnNum lsn : Int) : BufMeta :=
  { txnNum := txnNum, lsn := if lsn ≥ 0 then lsn else b.lsn }

/-- Replay a sequence of `SetModified` calls on a frame. -/
def setModifiedRun (b : BufMeta) (calls : List (Int × Int)) : BufMeta :=
  calls.foldl (fun st c => setModified st c.1 c.2) b

/-- The logged LSNs of a call sequence: the non-negative LSN arguments,
in call order. -/
def loggedLSNs (calls : List (Int × Int)) : List Int :=
  calls.filterMap (fun c => if c.2 ≥ 0 then some c.2 else none)

/-- The last element of a list, or `d` when it is empty. -/
def lastOr (d : Int) : List Int → Int
  | [] => d
  | x :: xs => lastOr x xs

/-! ## Concrete inputs used in the evaluation theorems -/

/-- The bytes of the string "Log record 1" (the repository's own log test
appends records of exactly this shape). -/
def demoRec1 : List Nat := [76, 111, 103, 32, 114, 101, 99, 111, 114, 100, 32, 49]

/-- The bytes of the string "Log record 2". -/
def demoRec2 : List Nat := [76, 111, 103, 32, 114, 101, 99, 111, 114, 100, 32, 50]

/-- A 12-byte record with pairwise-distinct bytes 65..76. -/
def demoRec3 : List Nat := (List.range 12).map (fun i => i + 65)

/-! # Theorems -/

/-- C1 (failing evaluation, 64-bit build): on the default build
(`IntSize = 8`) appending a record of `k = 12` payload bytes to a fresh
log block of size 32 (boundary 32) updates the stored boundary to
`32 - (12 + 4) = 16`, not `32 - (12 + 8) = 12` as the claim requires; the
claimed record region starts with untouched zero bytes instead of the
length word, and only the first 8 of the 12 payload bytes are stored
(the copy is cut off at the end of the page). -/
theorem C1_append_boundary_bug :
    pageGetInt 8 (logAppend 8 32 (newLogState 8 32) demoRec3).logPage 0 = 16
    ∧ (16 : Int) ≠ 32 - (12 + 8)
    ∧ ((logAppend 8 32 (newLogState 8 32) demoRec3).logPage.drop 12).take 8 ≠ beBytes 8 12
    ∧ (logAppend 8 32 (newLogState 8 32) demoRec3).logPage =
        [0, 0, 0, 0, 0, 0, 0, 16,
         0, 0, 0, 0, 0, 0, 0, 0,
         0, 0, 0, 0, 0, 0, 0, 12,
         65, 66, 67, 68, 69, 70, 71, 72] := by
  refine ⟨by decide, by decide, by decide, by decide⟩

/-- C2 (failing evaluation, 64-bit build): appending "Log record 1" then
"Log record 2" to a fresh log of block size 64 and iterating yields
"Log record 2" followed by an error (the second record's length word was
clobbered by the first `Next`'s overlapping payload, so `GetBytes` reads
a huge length and panics), not "Log record 2" then "Log record 1". -/
theorem C2_iterator_bug :
    logRoundTrip 8 64 [demoRec1, demoRec2] 3 = [Except.ok demoRec2, Except.error ()]
    ∧ logRoundTrip 8 64 [demoRec1, demoRec2] 3 ≠ [Except.ok demoRec2, Except.ok demoRec1] := by
  refine ⟨by decide, by decide⟩

/-- C3 (failing evaluation, 64-bit build): the record produced by
`WriteStartToLog` for transaction 7 starts with four zero bytes (not a
4-byte tag of value 1), and `CreateLogRecord` decodes it as a Checkpoint
record with the sentinel transaction number `-1`, not as a Start record
with transaction number 7. -/
theorem C3_start_decode_bug :
    (startRecordBytes 8 7).take 4 = [0, 0, 0, 0]
    ∧ createLogRecordMeta 8 (startRecordBytes 8 7) = Except.ok (RecType.checkpoint, -1)
    ∧ (Except.ok (RecType.checkpoint, (-1 : Int)) : Except Unit (RecType × Int)) ≠
        Except.ok (RecType.start, (7 : Int)) := by
  refine ⟨by decide, by decide, by decide⟩

/-- C5 (failing evaluation): when the very first `iter.Next()` of the
recovery scan fails, `doRecover` — and therefore `Recover` — reports
success (`nil` error) instead of surfacing the error. -/
theorem C5_recover_swallows_error :
    recoverFallible [Except.error ()] = Except.ok ()
    ∧ doRecoverFallible [Except.error ()] [] = Except.ok () := by
  exact ⟨rfl, rfl⟩

/-- Sanity check of the embedding: on the 32-bit build (`IntSize = 4`)
the hard-coded 4s agree with the integer width and the appended records
come back in reverse order, as the repository's log test expects. -/
theorem logRoundTrip_ok_on_32bit :
    logRoundTrip 4 64 [demoRec1, demoRec2] 3 = [Except.ok demoRec2, Except.ok demoRec1] := by
  decide

/-- Sanity check of the embedding: on the 32-bit build the Start record
round-trips through `CreateLogRecord`. -/
theorem startRecord_roundtrip_on_32bit :
    createLogRecordMeta 4 (startRecordBytes 4 7) = Except.ok (RecType.start, 7) := by
  decide

/-- Sanity check of the embedding: `WriteCommitToLog` places the
transaction number at offset `IntSize`, so the Commit record round-trips
even on the 64-bit build — isolating the Start record's hard-coded
offset 4 as the slip. -/
theorem commitRecord_roundtrip_on_64bit :
    createLogRecordMeta 8 (commitRecordBytes 8 7) = Except.ok (RecType.commit, 7) := by
  decide

/-- C4 (failing evaluation): `NewRollbackRecord` computes
`txNumPos := operationPos * utils.IntSize` — offset 0 — so a decoded
Rollback record's `TxNumber()` is the tag value 3, never the rolled-back
transaction's number.  On the 32-bit build (where the byte layer is
otherwise consistent), scanning the log
Rollback(5), SetInt(tx 5), Start(5) — newest first — therefore undoes
tx 5's update even though its Rollback record was seen earlier in the
reverse scan: the transaction never enters the finished set.  On the
default 64-bit build the Rollback record's bytes decode as a Checkpoint
record, stopping the scan at a record that is not a Checkpoint, and
`WriteCheckpointToLog` panics (`SetInt` writes 8 bytes into its 4-byte
record), so `Recover` cannot append the claimed Checkpoint record. -/
theorem C4_recover_rollback_bug :
    createLogRecordMeta 4 (rollbackRecordBytes 4 5) = Except.ok (RecType.rollback, 3)
    ∧ doRecoverDecode 4
        [rollbackRecordBytes 4 5, setIntRecordBytes 4 5 [97] 2 0 42,
         startRecordBytes 4 5] [] =
      Except.ok [(RecType.setInt, 5), (RecType.start, 5)]
    ∧ createLogRecordMeta 8 (rollbackRecordBytes 8 5) = Except.ok (RecType.checkpoint, -1)
    ∧ checkpointRecordBytes 8 = none := by
  refine ⟨by decide, by decide, by decide, by decide⟩

/-- Sanity check of the embedding: the Commit path of the same scan is
correct on the 32-bit build — a committed transaction's update is not
undone — isolating `NewRollbackRecord`'s `*` typo as the slip.  The
checkpoint record is also well formed there. -/
theorem recovery_commit_path_ok_on_32bit :
    doRecoverDecode 4
        [commitRecordBytes 4 5, setIntRecordBytes 4 5 [97] 2 0 42,
         startRecordBytes 4 5] [] =
      Except.ok []
    ∧ checkpointRecordBytes 4 = some [0, 0, 0, 0] := by
  refine ⟨by decide, by decide⟩


/-- C6: in every lock-table state reachable by successful `SLock`,
`XLock` and `Unlock` calls, each block's entry is absent, `-1`
(exclusively held) or a strictly positive count of shared holders — never
zero. -/
theorem C6_lock_table_invariant {B : Type} [DecidableEq B] (m : B → Option Int)
    (h : LockReachable m) :
    ∀ b : B, m b = none ∨ m b = some (-1) ∨ ∃ n : Int, 0 < n ∧ m b = some n := by
  induction h with
  | base => intro b; exact Or.inl rfl
  | @slock m0 m' b' hm hstep ih =>
    by_cases hx : hasXLock m0 b'
    · simp [slockTry, hx] at hstep
    · simp only [slockTry, hx, if_neg, ite_false] at hstep
      injection hstep with hstep
      subst hstep
      intro b
      by_cases hb : b = b'
      · subst hb
        refine Or.inr (Or.inr ⟨getLockVal m0 b + 1, ?_, ?_⟩)
        · unfold hasXLock at hx
          omega
        · simp [setLock]
      · have : setLock m0 b' (some (getLockVal m0 b' + 1)) b = m0 b := by
          simp [setLock, hb]
        rw [this]
        exact ih b
  | @xlock m0 m' b' hm hstep ih =>
    by_cases hx : hasOtherSLocks m0 b'
    · simp [xlockTry, hx] at hstep
    · rw [xlockTry, if_neg hx] at hstep
      cases hstep
      intro b
      by_cases hb : b = b'
      · subst hb
        exact Or.inr (Or.inl (by simp [setLock]))
      · have : setLock m0 b' (some (-1)) b = m0 b := by simp [setLock, hb]
        rw [this]
        exact ih b
  | @unlock m0 b' hm ih =>
    intro b
    by_cases hb : b = b'
    · subst hb
      unfold unlockGo
      by_cases hv : getLockVal m0 b > 1
      · rw [if_pos hv]
        refine Or.inr (Or.inr ⟨getLockVal m0 b - 1, by omega, by simp [setLock]⟩)
      · rw [if_neg hv]
        exact Or.inl (by simp [setLock])
    · unfold unlockGo
      by_cases hv : getLockVal m0 b' > 1
      · rw [if_pos hv]
        have : setLock m0 b' (some (getLockVal m0 b' - 1)) b = m0 b := by
          simp [setLock, hb]
        rw [this]
        exact ih b
      · rw [if_neg hv]
        have : setLock m0 b' none b = m0 b := by simp [setLock, hb]
        rw [this]
        exact ih b

/-- C6 witness: the invariant at a concrete reachable state — one
successful `SLock` on block 0 from the empty table — evaluated at
block 0. -/
theorem C6_lock_table_invariant_witness :
    setLock (fun _ => none : Nat → Option Int) 0 (some 1) 0 = none
    ∨ setLock (fun _ => none : Nat → Option Int) 0 (some 1) 0 = some (-1)
    ∨ ∃ n : Int, 0 < n ∧ setLock (fun _ => none : Nat → Option Int) 0 (some 1) 0 = some n :=
  C6_lock_table_invariant _
    (LockReachable.slock 0 LockReachable.base (by simp [slockTry, hasXLock, getLockVal, setLock]))
    0

/-- C7: `XLock` on a block with no entry in the lock table (counter 0)
succeeds on the first pass of its loop — without waiting — and sets the
block's entry to `-1`. -/
theorem C7_xlock_succeeds_when_absent {B : Type} [DecidableEq B]
    (m : B → Option Int) (b : B) (h : m b = none) :
    xlockTry m b = some (setLock m b (some (-1)))
    ∧ setLock m b (some (-1)) b = some (-1) := by
  constructor
  · rw [xlockTry, if_neg]
    unfold hasOtherSLocks getLockVal
    rw [h]
    simp
  · simp [setLock]

/-- C7 witness: the empty lock table and block 0. -/
theorem C7_xlock_succeeds_when_absent_witness :
    xlockTry (fun _ => none : Nat → Option Int) 0 =
      some (setLock (fun _ => none : Nat → Option Int) 0 (some (-1)))
    ∧ setLock (fun _ => none : Nat → Option Int) 0 (some (-1)) 0 = some (-1) :=
  C7_xlock_succeeds_when_absent (fun _ => none) 0 rfl

/-- C8: reading a block at or beyond the current block count of its file
(whose size is a whole number of blocks, as the file manager maintains)
succeeds and leaves the destination page untouched, while a read that
obtains only part of a block returns an error. -/
theorem C8_read_at_or_beyond_eof (blockSize nb blockNum : Nat)
    (fileBytes page : List Nat) (hbs : 0 < blockSize) (hpage : page.length = blockSize) :
    (fileBytes.length = nb * blockSize → nb ≤ blockNum →
      fmRead blockSize fileBytes blockNum page = Except.ok page)
    ∧ (0 < fileBytes.length - blockNum * blockSize →
      fileBytes.length - blockNum * blockSize < blockSize →
      fmRead blockSize fileBytes blockNum page = Except.error ()) := by
  constructor
  · intro hlen hnb
    have hoff : fileBytes.length ≤ blockNum * blockSize := by
      rw [hlen]
      exact Nat.mul_le_mul_right blockSize hnb
    have havail : fileBytes.length - blockNum * blockSize = 0 := Nat.sub_eq_zero_of_le hoff
    simp only [fmRead, havail, Nat.min_zero]
    rw [if_neg (by omega)]
    simp
  · intro hpos hlt
    have hmin : min page.length (fileBytes.length - blockNum * blockSize) =
        fileBytes.length - blockNum * blockSize := by omega
    simp only [fmRead, hmin]
    rw [if_neg (by omega), if_neg (by omega)]

/-- C8 witness: with block size 4, reading block 1 of a one-block file
leaves the page unchanged and succeeds; reading block 0 of a file holding
only two stray bytes fails. -/
theorem C8_read_at_or_beyond_eof_witness :
    fmRead 4 [1, 2, 3, 4] 1 [9, 9, 9, 9] = Except.ok [9, 9, 9, 9]
    ∧ fmRead 4 [1, 2] 0 [9, 9, 9, 9] = Except.error () :=
  ⟨(C8_read_at_or_beyond_eof 4 1 1 [1, 2, 3, 4] [9, 9, 9, 9] (by decide) rfl).1 rfl
      (by decide),
   (C8_read_at_or_beyond_eof 4 0 0 [1, 2] [9, 9, 9, 9] (by decide) rfl).2 (by decide)
      (by decide)⟩

/-- C9: `BufferList.Unpin` (to which `Transaction.Unpin` delegates) on a
block the transaction has not pinned returns silently: the transaction's
buffer list, the pool's per-frame pin counts and the pool's available
count are all unchanged. -/
theorem C9_unpin_unpinned_block {B : Type} [DecidableEq B]
    (bl : BufList B) (pool : PoolState) (b : B) (h : bl b = none) :
    bufListUnpin bl pool b = (bl, pool) := by
  unfold bufListUnpin
  rw [h]

/-- C9 witness: unpinning block 0 against an empty buffer list leaves the
list and a concrete pool untouched. -/
theorem C9_unpin_unpinned_block_witness :
    bufListUnpin (fun _ => none : BufList Nat) ⟨fun _ => 0, 1⟩ 0 =
      ((fun _ => none : BufList Nat), (⟨fun _ => 0, 1⟩ : PoolState)) :=
  C9_unpin_unpinned_block (fun _ => none) ⟨fun _ => 0, 1⟩ 0 rfl

/-- Helper: the LSN stored after a run of `SetModified` calls is the last
logged (non-negative) LSN of the run, or the initial LSN when none was
logged. -/
theorem setModifiedRun_lsn (calls : List (Int × Int)) :
    ∀ b0 : BufMeta, (setModifiedRun b0 calls).lsn = lastOr b0.lsn (loggedLSNs calls) := by
  induction calls with
  | nil => intro b0; rfl
  | cons c rest ih =>
    intro b0
    by_cases hl : c.2 ≥ 0
    · have h1 : setModifiedRun b0 (c :: rest) = setModifiedRun (setModified b0 c.1 c.2) rest := rfl
      have h2 : loggedLSNs (c :: rest) = c.2 :: loggedLSNs rest := by
        simp [loggedLSNs, List.filterMap_cons, hl]
      rw [h1, ih, h2]
      have h3 : (setModified b0 c.1 c.2).lsn = c.2 := by simp [setModified, hl]
      rw [h3]
      rfl
    · have h1 : setModifiedRun b0 (c :: rest) = setModifiedRun (setModified b0 c.1 c.2) rest := rfl
      have h2 : loggedLSNs (c :: rest) = loggedLSNs rest := by
        simp [loggedLSNs, List.filterMap_cons, hl]
      rw [h1, ih, h2]
      have h3 : (setModified b0 c.1 c.2).lsn = b0.lsn := by simp [setModified, hl]
      rw [h3]

/-- Helper: the head of a chain of non-decreasing values is bounded by
the chain's last element. -/
theorem head_le_lastOr (xs : List Int) :
    ∀ a : Int, (a :: xs).Pairwise (· ≤ ·) → a ≤ lastOr a xs := by
  induction xs with
  | nil => intro a _; exact le_refl a
  | cons x ys ih =>
    intro a h
    rw [List.pairwise_cons] at h
    have hax : a ≤ x := h.1 x (List.mem_cons_self x ys)
    have hx : x ≤ lastOr x ys := ih x h.2
    calc a ≤ x := hax
      _ ≤ lastOr x ys := hx

/-- Helper: every element of a non-decreasing chain is bounded by the
chain's last element, whatever the default. -/
theorem mem_le_lastOr (xs : List Int) :
    ∀ d : Int, xs.Pairwise (· ≤ ·) → ∀ x ∈ xs, x ≤ lastOr d xs := by
  induction xs with
  | nil => intro d _ x hx; cases hx
  | cons a ys ih =>
    intro d h x hx
    rcases List.mem_cons.mp hx with rfl | hmem
    · exact head_le_lastOr ys x h
    · exact ih a (List.pairwise_cons.mp h).2 x hmem

/-- C10: `SetModified` always records the modifying transaction; it
adopts the LSN only when it is non-negative, so an unlogged write
(`lsn = -1`, as undo passes) leaves the stored LSN unchanged; and over
any call sequence whose logged LSNs arrive in non-decreasing order (as
the log manager issues them) the stored LSN never drops below any LSN
logged earlier in the run. -/
theorem C10_set_modified (b0 : BufMeta) (txnNum lsn : Int)
    (calls : List (Int × Int)) (hmono : (loggedLSNs calls).Pairwise (· ≤ ·)) :
    (setModified b0 txnNum lsn).txnNum = txnNum
    ∧ (lsn ≥ 0 → (setModified b0 txnNum lsn).lsn = lsn)
    ∧ (lsn < 0 → (setModified b0 txnNum lsn).lsn = b0.lsn)
    ∧ ∀ x ∈ loggedLSNs calls, x ≤ (setModifiedRun b0 calls).lsn := by
  refine ⟨rfl, ?_, ?_, ?_⟩
  · intro h
    simp [setModified, h]
  · intro h
    have hn : ¬lsn ≥ 0 := not_le.mpr h
    simp [setModified, hn]
  · intro x hx
    rw [setModifiedRun_lsn calls b0]
    exact mem_le_lastOr (loggedLSNs calls) b0.lsn hmono x hx

/-- C10 witness: a fresh frame receiving a logged write with LSN 5, then
an unlogged undo write (`lsn = -1`): the transaction is recorded and the
stored LSN stays at 5. -/
theorem C10_set_modified_witness :
    (setModified ⟨-1, -1⟩ 3 (-1)).txnNum = 3
    ∧ (setModified ⟨-1, -1⟩ 3 (-1)).lsn = (⟨-1, -1⟩ : BufMeta).lsn
    ∧ 5 ≤ (setModifiedRun ⟨-1, -1⟩ [(3, 5), (3, -1)]).lsn :=
  ⟨(C10_set_modified ⟨-1, -1⟩ 3 (-1) [(3, 5), (3, -1)] (by decide)).1,
   (C10_set_modified ⟨-1, -1⟩ 3 (-1) [(3, 5), (3, -1)] (by decide)).2.2.1 (by decide),
   (C10_set_modified ⟨-1, -1⟩ 3 (-1) [(3, 5), (3, -1)] (by decide)).2.2.2 5 (by decide)⟩
